import Mathlib

/-!
Verification of `scripts/unet.py` (brain MRI segmentation training script).

The script's data pipeline is embedded shallowly:

* filenames are Lean `String`s and the python string operations used by the
  script (`split`, `in`, `int(...)`) are modelled character-by-character;
* numpy arrays are nested lists of exact rationals (`ℚ` in place of floats);
* fallible python code (IndexError / ValueError / TypeError at dataset
  construction) is modelled with `Option`, `none` marking an exception;
* the file-reading functions (`skimage.io.imread`) and the preprocessing
  helpers from `scripts/brainseg_utils.py` (absent from this snapshot) are
  taken as function parameters.
-/

namespace UnetSpec

/-- Split a character list at every occurrence of the separator character,
keeping empty parts: this is python `s.split(c)` for a one-character
separator, which yields `n + 1` parts for `n` occurrences. -/
def splitChar (c : Char) : List Char → List (List Char)
  | [] => [[]]
  | a :: rest =>
    let r := splitChar c rest
    if a = c then [] :: r
    else
      match r with
      | [] => [[a]]
      | p :: ps => (a :: p) :: ps

/-- python `s.split(c)` on `String`s (one-character separator). -/
def pySplit (c : Char) (s : String) : List String :=
  (splitChar c s.data).map String.mk

/-- Contiguous-substring test on character lists. -/
def hasSubChars (pat : List Char) : List Char → Bool
  | [] => pat.isEmpty
  | a :: rest => pat.isPrefixOf (a :: rest) || hasSubChars pat rest

/-- python `sub in s` for strings: contiguous substring occurrence. -/
def pyIn (sub s : String) : Bool :=
  hasSubChars sub.data s.data

/-- Value of a nonempty run of decimal digits (helper for `pyInt`). -/
def digitsVal (acc : ℕ) : List Char → Option ℕ
  | [] => some acc
  | c :: rest => if c.isDigit then digitsVal (acc * 10 + (c.toNat - 48)) rest else none

/-- python `int(s)` on the tokens arising here: surrounding whitespace is
stripped, an optional sign is allowed, and then a nonempty digit run is
required; anything else raises ValueError (`none`). (python additionally
allows `_` digit-group separators, which cannot occur in a token obtained by
splitting on `_`.) -/
def pyInt (s : String) : Option ℤ :=
  let t := (((s.data.dropWhile (fun c => c.isWhitespace)).reverse.dropWhile
    (fun c => c.isWhitespace)).reverse)
  match t with
  | '-' :: rest =>
    if rest.isEmpty then none else (digitsVal 0 rest).map (fun n => -(n : ℤ))
  | '+' :: rest =>
    if rest.isEmpty then none else (digitsVal 0 rest).map (fun n => (n : ℤ))
  | [] => none
  | rest => (digitsVal 0 rest).map (fun n => (n : ℤ))

/-- The sort key of line 57, `int(x.split(".")[-2].split("_")[4])`: the
second-to-last dot-separated segment must exist (else IndexError), its 5th
underscore-separated field must exist (else IndexError), and that field must
parse as an integer (else ValueError). `none` models the exception. -/
def sliceIndexOf (f : String) : Option ℤ := do
  let parts := pySplit '.' f
  let seg ← if 2 ≤ parts.length then parts.get? (parts.length - 2) else none
  let fields := pySplit '_' seg
  let tok ← fields.get? 4
  pyInt tok

/-- Comparison of key/filename pairs by key, as python `sorted(..., key=...)`
compares decorated elements. -/
def keyLe (a b : ℤ × String) : Prop :=
  a.1 ≤ b.1

instance : DecidableRel keyLe := fun a b => inferInstanceAs (Decidable (a.1 ≤ b.1))

instance : IsTotal (ℤ × String) keyLe :=
  ⟨fun a b => Int.le_total a.1 b.1⟩

instance : IsTrans (ℤ × String) keyLe :=
  ⟨fun _ _ _ h h' => le_trans h h'⟩

/-- One directory yielded by `os.walk`: its path and the names of the plain
files it contains, in the order the walk reports them. -/
structure RawDir where
  path : String
  files : List String
  deriving DecidableEq, Repr

/-- Mapping with exception propagation: elements are processed left to right
and the first raised exception aborts the whole computation (as in a python
list comprehension, or `sorted` evaluating its key function). -/
def optionMapM (f : α → Option β) : List α → Option (List β)
  | [] => some []
  | a :: t => do
    let b ← f a
    let bs ← optionMapM f t
    some (b :: bs)

/-- Line 55-58 selection: `filter(lambda f: ".tif" in f, filenames)` paired
with each name's sort key. python's `sorted` evaluates the key on every
element up front, so one unparsable selected name aborts the walk with an
exception (`none`). -/
def keyedTifs (files : List String) : Option (List (ℤ × String)) :=
  optionMapM (fun f => (sliceIndexOf f).map (fun k => (k, f)))
    (files.filter (fun f => pyIn ".tif" f))

/-- Lines 55-63: select the ".tif" names, sort them by slice index (python's
sort is stable; `List.insertionSort` with insert-before-on-`≤` is the same
stable sort extensionally), then partition into image and mask names by the
`"mask" in filename` test, preserving the sorted order. Returns
(image names, mask names). -/
def assembleDir (d : RawDir) : Option (List String × List String) := do
  let keyed ← keyedTifs d.files
  let sortedNames := (List.insertionSort keyLe keyed).map Prod.snd
  some (sortedNames.filter (fun f => !(pyIn "mask" f)),
        sortedNames.filter (fun f => pyIn "mask" f))

/-- Line 65: `patient_id = dirpath.split("/")[-1]` (`pySplit` never returns
`[]`, so the default is never used). -/
def patientId (path : String) : String :=
  (pySplit '/' path).getLastD ""

/-- python `xs[1:-1]`: drop the first and the last element; the result has
length `max (len - 2) 0`. -/
def pyTrim (xs : List α) : List α :=
  (xs.drop 1).dropLast

/-- Stated from the spec's words, for comparison with the code's substring
test: a filename "has a `.tif` extension" when the part after its final dot
is exactly `tif`. -/
def hasTifExtension (f : String) : Bool :=
  2 ≤ (pySplit '.' f).length && (pySplit '.' f).getLastD "" == "tif"

/-- A 2-D array: one grayscale mask slice as read by
`imread(filepath, as_gray=True)` (rows of pixel values, rationals in place
of floats). -/
abbrev Gray2 := List (List ℚ)

/-- A 3-D array: one color image slice (H x W x C) as read by
`imread(filepath)`, or a mask slice after `m[..., np.newaxis]`. -/
abbrev Arr3 := List (List (List ℚ))

/-- The value of `m.sum(axis=-1).sum(axis=-1)` for
`m = np.array(mask_slices[1:-1])`. A nonempty stack of 2-D slices is a 3-D
array and the two sums produce the vector of per-slice pixel totals. An empty
list gives `np.array([])`, a 1-D empty float array: the first `sum(axis=-1)`
collapses it to a 0-d scalar `0.0` and the second leaves a 0-d value, so no
per-slice vector exists. -/
inductive NpSum where
  | scalar (x : ℚ)
  | vec (xs : List ℚ)
  deriving DecidableEq, Repr

/-- Line 85: `m.sum(axis=-1).sum(axis=-1)` on the trimmed mask stack. -/
def maskSliceSums (m : List Gray2) : NpSum :=
  match m with
  | [] => .scalar 0
  | _ :: _ => .vec (m.map (fun sl => (sl.map List.sum).sum))

/-- Lines 86-88: `(s + (s.sum() * 0.1 / len(s))) / (s.sum() * 1.1)`,
vectorized over the per-slice sums. `len(s)` raises TypeError on the 0-d
value produced by an empty slice stack (`none`). Exact rationals replace
floats; note `x / 0 = 0` in `ℚ` where numpy produces `nan` — in both
readings an all-zero mask stack fails to yield a probability vector. -/
def normalizeWeights : NpSum → Option (List ℚ)
  | .scalar _ => none
  | .vec s =>
      some (s.map (fun x => (x + s.sum * (1 / 10) / (s.length : ℚ)) / (s.sum * (11 / 10))))

/-- Line 90: `m[..., np.newaxis]` turns an H x W mask slice into H x W x 1. -/
def addChannel (m : Gray2) : Arr3 :=
  m.map (fun row => row.map (fun x => [x]))

/-- python dict assignment `d[k] = v`: replace the value in place when the
key exists (keeping insertion order), else append the pair. -/
def dictInsert (k : String) (v : β) : List (String × β) → List (String × β)
  | [] => [(k, v)]
  | (k', v') :: rest =>
    if k = k' then (k, v) :: rest else (k', v') :: dictInsert k v rest

/-- Lines 52-67, the `os.walk` loop. Each visited directory is assembled and
its slices read from disk — `readImg f` models `imread(f)` and `readMask f`
models `imread(f, as_gray=True)`; `os.path.join` is `dirpath + "/" + name`.
A directory with at least one image file (`len(image_slices) > 0`, checked
before trimming) registers patient `dirpath.split("/")[-1]` with the
`[1:-1]`-trimmed image and mask stacks. `none` propagates a filename parse
error. -/
def assembleAll (readImg : String → Arr3) (readMask : String → Gray2)
    (dirs : List RawDir) : Option (List (String × (List Arr3 × List Gray2))) :=
  dirs.foldlM
    (fun dict d => do
      let (imgFiles, maskFiles) ← assembleDir d
      let imageSlices := imgFiles.map (fun f => readImg (d.path ++ "/" ++ f))
      let maskSlices := maskFiles.map (fun f => readMask (d.path ++ "/" ++ f))
      if imageSlices.length > 0 then
        pure (dictInsert (patientId d.path) (pyTrim imageSlices, pyTrim maskSlices) dict)
      else
        pure dict)
    []

/-- Line 68: `self.patients = sorted(volumes)` — the dict keys in ascending
string order (python's stable sort; the keys are distinct). -/
def sortedPatients (dict : List (String × β)) : List String :=
  List.insertionSort (fun a b : String => a ≤ b) (dict.map Prod.fst)

/-- Line 71: `self.volumes = [(volumes[k], masks[k]) for k in self.patients]`
(the default is never used: every key looked up comes from the dict). -/
def volumesOf (dict : List (String × (List Arr3 × List Gray2))) :
    List (List Arr3 × List Gray2) :=
  (sortedPatients dict).map (fun k => (dict.lookup k).getD ([], []))

/-- Lines 85-88: the per-patient sampling-weight vectors; `none` when any
patient's weight computation raises. -/
def weightsOf (vols : List (List Arr3 × List Gray2)) : Option (List (List ℚ)) :=
  optionMapM (fun vm => normalizeWeights (maskSliceSums vm.2)) vols

/-- Lines 93-99: `zip(sum([[i]*num_slices[i] ...], []), sum([list(range(x))
...], []))` — the flat (patient index, slice index) table. -/
def psiOf (ns : List ℕ) : List (ℕ × ℕ) :=
  List.zip ((ns.enum.map (fun p => List.replicate p.2 p.1)).flatten)
    ((ns.map (fun n => List.range n)).flatten)

/-- The state built by `BrainSegmentationDataset.__init__` (the configured
transform, also stored by the constructor, is kept out of the structure and
passed at access time so that datasets stay decidably comparable). -/
structure Dataset where
  patients : List String
  volumes : List (List Arr3 × List Arr3)
  slice_weights : List (List ℚ)
  patient_slice_index : List (ℕ × ℕ)
  random_sampling : Bool
  deriving DecidableEq, Repr

/-- Constructor `BrainSegmentationDataset.__init__` (lines 42-101). The preprocessing
stages of lines 74-83 come from `scripts/brainseg_utils.py`, which is not in
this snapshot; they are a parameter. Modelled from the spec: missing
`crop_sample`, `pad_sample`, `resize_sample`, `normalize_volume` — per spec
section 4.2 each stage maps one patient volume (image stack, mask stack) to a
transformed volume of the same shape convention, so their composite is an
arbitrary volume-to-volume function `prep`. After the weights are computed the
masks get a trailing channel axis (line 90); the slice table is built from the
image-stack lengths (`v.shape[0]`, line 93). -/
def buildDataset (readImg : String → Arr3) (readMask : String → Gray2)
    (prep : List Arr3 × List Gray2 → List Arr3 × List Gray2)
    (dirs : List RawDir) (random_sampling : Bool) : Option Dataset := do
  let dict ← assembleAll readImg readMask dirs
  let vols1 := (volumesOf dict).map prep
  let slice_weights ← weightsOf vols1
  let volumes := vols1.map (fun vm => (vm.1, vm.2.map addChannel))
  pure
    { patients := sortedPatients dict
      volumes := volumes
      slice_weights := slice_weights
      patient_slice_index := psiOf (volumes.map (fun vm => vm.1.length))
      random_sampling := random_sampling }

/-- numpy `transpose(2, 0, 1)` on a regular H x W x C array:
`result[c][h][w] = x[h][w][c]`; the channel count is read off the first
pixel (numpy arrays are regular). -/
def transpose201 (x : Arr3) : Arr3 :=
  let c := ((x.get? 0).bind (fun r => r.get? 0)).elim 0 List.length
  (List.range c).map (fun k => x.map (fun row => row.map (fun px => px.getD k 0)))

/-- Model of `__len__` (lines 102-103). -/
def dsLen (ds : Dataset) : ℕ :=
  ds.patient_slice_index.length

/-- Model of `__getitem__` (lines 104-123). The requested index is first looked up in
`patient_slice_index` (an out-of-range index raises, `none`). In
random-sampling mode the looked-up pair is discarded: `pDraw` is the value
returned by `np.random.randint(len(self.volumes))` and `sDraw` the slice
index returned by `np.random.choice(range(...), p=self.slice_weights[...])`.
The configured transform together with its own per-access random draw is the
deterministic function `tr` (`Prod.map id id` models `transform=None`); both
arrays are then rearranged to channel-first layout, and `torch.from_numpy`
keeps the values. -/
def getitem (ds : Dataset) (tr : Arr3 × Arr3 → Arr3 × Arr3)
    (pDraw sDraw idx : ℕ) : Option (Arr3 × Arr3) := do
  let pr ← ds.patient_slice_index.get? idx
  let patient := if ds.random_sampling then pDraw else pr.1
  let slice_n := if ds.random_sampling then sDraw else pr.2
  let vm ← ds.volumes.get? patient
  let image ← vm.1.get? slice_n
  let mask ← vm.2.get? slice_n
  let im := tr (image, mask)
  some (transpose201 im.1, transpose201 im.2)

instance : DecidableEq (String × (List Arr3 × List Gray2)) :=
  instDecidableEqProd

/-- Channels/height/width of one feature map. Every layer of the network acts
identically and independently on each batch element, so shapes are tracked
per element and the batch size is carried along unchanged (`unetApply`). -/
structure CHW where
  c : ℕ
  h : ℕ
  w : ℕ
  deriving DecidableEq, Repr

/-- Shape of `ConvBlock(in_size, out_size)` (lines 197-208): two 3x3 convolutions with
padding 1, each followed by ReLU — spatial size preserved
(`h + 2*1 - 3 + 1 = h`), channels `in_size → out_size`; the input must carry
the declared channel count or torch raises (`none`). -/
def convBlockShape (inC outC : ℕ) (s : CHW) : Option CHW :=
  if s.c = inC then some ⟨outC, s.h, s.w⟩ else none

/-- Shape of `F.max_pool2d(x, 2)` (line 190): kernel 2, stride 2, floor division. -/
def maxPool2 (s : CHW) : CHW :=
  ⟨s.c, s.h / 2, s.w / 2⟩

/-- Shape of `nn.ConvTranspose2d(in_size, out_size, kernel_size=2, stride=2)`
(line 213): spatial size `(h - 1) * 2 + 2 = 2 * h`. -/
def upConvShape (inC outC : ℕ) (s : CHW) : Option CHW :=
  if s.c = inC then some ⟨outC, 2 * s.h, 2 * s.w⟩ else none

/-- Shape of `torch.cat([up, bridge], 1)` (line 219): channel counts add; the
remaining dimensions must agree or torch raises (`none`). -/
def concatShape (a b : CHW) : Option CHW :=
  if a.h = b.h ∧ a.w = b.w then some ⟨a.c + b.c, a.h, a.w⟩ else none

/-- Shape of `UpBlock(in_size, out_size).forward(x, bridge)` (lines 210-223):
transposed convolution, concatenation with the bridge, then a
`ConvBlock(in_size, out_size)` (the concatenated map has
`out_size + bridge.c` channels, which must equal `in_size`). -/
def upBlockShape (inC outC : ℕ) (x bridge : CHW) : Option CHW := do
  let u ← upConvShape inC outC x
  let cat ← concatShape u bridge
  convBlockShape inC outC cat

/-- Shape of `nn.Conv2d(prev_channels, channels_out, kernel_size=1)` (line 182). -/
def conv1x1Shape (inC outC : ℕ) (s : CHW) : Option CHW :=
  if s.c = inC then some ⟨outC, s.h, s.w⟩ else none

/-- The `(prev_channels, 2 ** (n_filters + i))` pairs produced by iterating
`prev_channels` over a list of stage exponents (UNet.__init__). -/
def channelPairs (nFilters : ℕ) (prev : ℕ) : List ℕ → List (ℕ × ℕ)
  | [] => []
  | i :: rest => (prev, 2 ^ (nFilters + i)) :: channelPairs nFilters (2 ^ (nFilters + i)) rest

/-- Lines 170-175: `for i in range(depth): ConvBlock(prev, 2**(n_filters+i))`. -/
def downChannels (channelsIn nFilters depth : ℕ) : List (ℕ × ℕ) :=
  channelPairs nFilters channelsIn (List.range depth)

/-- Lines 176-181: `for i in reversed(range(depth - 1)):
UpBlock(prev, 2**(n_filters+i))`, starting from the down path's final
channel count. -/
def upChannels (nFilters depth prev : ℕ) : List (ℕ × ℕ) :=
  channelPairs nFilters prev (List.range (depth - 1)).reverse

/-- The value of `prev_channels` after a loop: the last out-channel count,
or the start value if the loop was empty. -/
def finalChannel (start : ℕ) (chs : List (ℕ × ℕ)) : ℕ :=
  ((chs.getLast?).map Prod.snd).getD start

/-- UNet.forward encoder loop (lines 184-191): apply each ConvBlock in turn;
for every stage but the last, retain the pre-pooling feature map in `blocks`
and 2x2-max-pool. Returns (blocks, bottleneck shape). -/
def runDown (chs : List (ℕ × ℕ)) (s : CHW) : Option (List CHW × CHW) :=
  chs.enum.foldlM
    (fun acc p => do
      let y ← convBlockShape p.2.1 p.2.2 acc.2
      if p.1 ≠ chs.length - 1 then pure (acc.1 ++ [y], maxPool2 y)
      else pure (acc.1, y))
    ([], s)

/-- UNet.forward decoder loop (lines 192-194): stage `i` consumes
`blocks[-i-1]`, i.e. `blocks[len(blocks) - 1 - i]` for `i < len(blocks)` and
an IndexError otherwise. The bridges are returned in consumption order. -/
def runUp (chs : List (ℕ × ℕ)) (blocks : List CHW) (s : CHW) :
    Option (CHW × List CHW) :=
  chs.enum.foldlM
    (fun acc p => do
      let bridge ← if p.1 < blocks.length then blocks.get? (blocks.length - 1 - p.1) else none
      let y ← upBlockShape p.2.1 p.2.2 acc.1 bridge
      pure (y, acc.2 ++ [bridge]))
    (s, [])

/-- Model of `UNet(channels_in, channels_out, depth, n_filters).forward` at shape
level, reporting the output shape together with the skip connections in the
order the decoder consumed them. -/
def unetForward (channelsIn channelsOut depth nFilters : ℕ) (s : CHW) :
    Option (CHW × List CHW) := do
  let dch := downChannels channelsIn nFilters depth
  let prevd := finalChannel channelsIn dch
  let uch := upChannels nFilters depth prevd
  let (blocks, x) ← runDown dch s
  let (y, used) ← runUp uch blocks x
  let out ← conv1x1Shape (finalChannel prevd uch) channelsOut y
  pure (out, used)

/-- The forward pass on a full (N, C, H, W) input: the batch dimension is
untouched by every layer. -/
def unetApply (channelsIn channelsOut depth nFilters n : ℕ) (s : CHW) :
    Option ((ℕ × CHW) × List CHW) :=
  (unetForward channelsIn channelsOut depth nFilters s).map (fun r => ((n, r.1), r.2))

/-- A torch tensor of shape (N, C, S) — batch, channel, flattened spatial —
as nested lists of rationals. `DiceLoss` only ever distinguishes batch and
channel structure, so the spatial extent is kept flat. -/
abbrev DTensor := List (List (List ℚ))

/-- The (N, C, S) shape of a regular `DTensor`, `none` when ragged (a ragged
value does not correspond to any torch tensor). An empty batch reports shape
(0, 0, 0). -/
def tensorShape : DTensor → Option (ℕ × ℕ × ℕ)
  | [] => some (0, 0, 0)
  | b :: bs =>
    match b with
    | [] => if bs.all (fun b2 => b2.isEmpty) then some (bs.length + 1, 0, 0) else none
    | ch :: chs =>
      if (chs.all (fun c => c.length = ch.length)) &&
          (bs.all (fun b2 => b2.length = chs.length + 1 &&
            b2.all (fun c => c.length = ch.length))) then
        some (bs.length + 1, chs.length + 1, ch.length)
      else none

/-- Model of `DiceLoss.forward` (lines 230-242): assert equal sizes, take channel 0 of
each batch element (`y[:, 0]`, an IndexError when there are no channels),
flatten, and return `1 - (2*intersection + smooth) / (sum + sum + smooth)`
with `smooth = 1.0`. -/
def diceLoss (y_pred y_true : DTensor) : Option ℚ := do
  let sp ← tensorShape y_pred
  let st ← tensorShape y_true
  if sp = st then
    let pf ← optionMapM (fun b => b.get? 0) y_pred
    let tf ← optionMapM (fun b => b.get? 0) y_true
    let pv := pf.flatten
    let tv := tf.flatten
    let intersection := (List.zipWith (fun a b => a * b) pv tv).sum
    some (1 - (2 * intersection + 1) / (pv.sum + tv.sum + 1))
  else none

/-! ### Helper lemmas -/

theorem optionMapM_forall₂ {α β : Type} {f : α → Option β} {l : List α} {l' : List β}
    (h : optionMapM f l = some l') : List.Forall₂ (fun a b => f a = some b) l l' := by
  induction l generalizing l' with
  | nil => cases h; constructor
  | cons a t ih =>
    rw [optionMapM] at h
    cases hfa : f a with
    | none => simp [hfa] at h
    | some b =>
      cases hml : optionMapM f t with
      | none => simp [hfa, hml] at h
      | some bs =>
        simp [hfa, hml] at h
        cases h
        exact List.Forall₂.cons hfa (ih hml)

theorem optionMapM_none {α β : Type} {f : α → Option β} {l : List α} {a : α}
    (ha : a ∈ l) (hfa : f a = none) : optionMapM f l = none := by
  induction l with
  | nil => cases ha
  | cons x t ih =>
    rw [optionMapM]
    rcases List.mem_cons.mp ha with h | h
    · cases h; simp [hfa]
    · cases hfx : f x with
      | none => simp
      | some y => simp [ih h]

theorem optionMapM_of_forall₂ {α β : Type} {f : α → Option β} {l : List α} {l' : List β}
    (h : List.Forall₂ (fun a b => f a = some b) l l') : optionMapM f l = some l' := by
  induction h with
  | nil => rfl
  | cons hab _ ih => rw [optionMapM]; simp [hab, ih]

theorem foldlM_option_none {σ α : Type} {g : σ → α → Option σ} {l : List α} {a : α}
    (ha : a ∈ l) (hg : ∀ s, g s a = none) : ∀ init, l.foldlM g init = none := by
  induction l with
  | nil => cases ha
  | cons x t ih =>
    intro init
    rcases List.mem_cons.mp ha with h | h
    · cases h; simp [List.foldlM_cons, hg]
    · cases hgx : g init x with
      | none => simp [List.foldlM_cons, hgx]
      | some s' =>
        simp only [List.foldlM_cons, hgx, Option.some_bind]
        exact ih h s'

theorem pyTrim_length {α : Type} (xs : List α) : (pyTrim xs).length = xs.length - 2 := by
  simp [pyTrim, Nat.sub_sub]

theorem pyTrim_eq_nil {α : Type} (xs : List α) (h : xs.length ≤ 2) : pyTrim xs = [] := by
  have hl := pyTrim_length xs
  cases hn : pyTrim xs with
  | nil => rfl
  | cons y ys =>
    rw [hn] at hl
    simp at hl
    omega

theorem zip_replicate_range (i n : ℕ) :
    List.zip (List.replicate n i) (List.range n) = (List.range n).map (fun s => (i, s)) := by
  induction n with
  | zero => rfl
  | succ m ih =>
    rw [List.range_succ, List.replicate_succ' m i, List.zip_append (by simp), ih,
      List.map_append]
    rfl

theorem psiOf_zip_eq (k : ℕ) (ns : List ℕ) :
    List.zip (((List.enumFrom k ns).map (fun p => List.replicate p.2 p.1)).flatten)
      ((ns.map (fun n => List.range n)).flatten) =
    ((List.enumFrom k ns).map (fun q => (List.range q.2).map (fun t => (q.1, t)))).flatten := by
  induction ns generalizing k with
  | nil => rfl
  | cons n t ih =>
    simp only [List.enumFrom_cons, List.map_cons, List.flatten_cons]
    rw [List.zip_append (by simp), ih (k + 1), zip_replicate_range]

/-- The flat index table in closed form: for each patient position `p` with
`n` kept slices, the pairs `(p, 0) … (p, n-1)`, concatenated in patient
order. -/
theorem psiOf_eq (ns : List ℕ) :
    psiOf ns = (ns.enum.map (fun q => (List.range q.2).map (fun t => (q.1, t)))).flatten :=
  psiOf_zip_eq 0 ns

theorem mem_psi_aux (ns : List ℕ) (p s : ℕ) : ∀ k : ℕ,
    ((p, s) ∈ ((List.enumFrom k ns).map
        (fun q => (List.range q.2).map (fun t => (q.1, t)))).flatten)
      ↔ ∃ j n, ns.get? j = some n ∧ p = k + j ∧ s < n := by
  induction ns with
  | nil => intro k; simp
  | cons n t ih =>
    intro k
    simp only [List.enumFrom_cons, List.map_cons, List.flatten_cons, List.mem_append,
      List.mem_map, List.mem_range]
    constructor
    · rintro (⟨t', ht', he⟩ | h)
      · cases he
        exact ⟨0, n, rfl, by omega, ht'⟩
      · rcases (ih (k + 1)).mp h with ⟨j, n', hg, hp, hs⟩
        exact ⟨j + 1, n', hg, by omega, hs⟩
    · rintro ⟨j, n', hg, hp, hs⟩
      cases j with
      | zero =>
        cases hg
        exact Or.inl ⟨s, hs, by simp [hp]⟩
      | succ j' =>
        refine Or.inr ((ih (k + 1)).mpr ⟨j', n', hg, by omega, hs⟩)

theorem psiOf_mem (ns : List ℕ) (p s : ℕ) :
    (p, s) ∈ psiOf ns ↔ ∃ n, ns.get? p = some n ∧ s < n := by
  rw [psiOf_eq]
  rw [show ns.enum = List.enumFrom 0 ns from rfl]
  rw [mem_psi_aux ns p s 0]
  constructor
  · rintro ⟨j, n, hg, hp, hs⟩
    exact ⟨n, by rw [hp]; simpa using hg, hs⟩
  · rintro ⟨n, hg, hs⟩
    exact ⟨p, n, hg, by omega, hs⟩

theorem nodup_psi_aux (ns : List ℕ) : ∀ k : ℕ,
    (((List.enumFrom k ns).map
        (fun q => (List.range q.2).map (fun t => (q.1, t)))).flatten).Nodup := by
  induction ns with
  | nil => intro k; simp
  | cons n t ih =>
    intro k
    simp only [List.enumFrom_cons, List.map_cons, List.flatten_cons]
    refine List.Nodup.append ?_ (ih (k + 1)) ?_
    · refine (List.nodup_range n).map ?_
      intro a b hab
      exact congrArg Prod.snd hab
    · intro x hx hx'
      rcases List.mem_map.mp hx with ⟨t', _, he⟩
      rcases (mem_psi_aux t x.1 x.2 (k + 1)).mp (by simpa using hx') with ⟨j, n', _, hp, _⟩
      cases he
      simp at hp
      omega

theorem psiOf_nodup (ns : List ℕ) : (psiOf ns).Nodup := by
  rw [psiOf_eq]
  exact nodup_psi_aux ns 0

theorem psiOf_length (ns : List ℕ) : (psiOf ns).length = ns.sum := by
  rw [psiOf_eq, List.length_flatten, List.map_map]
  have h1 : (List.length ∘ fun q : ℕ × ℕ => (List.range q.2).map (fun t => (q.1, t)))
      = Prod.snd := by
    funext q
    simp [Function.comp]
  rw [h1]
  rw [show ns.enum = List.enumFrom 0 ns from rfl, List.enumFrom_map_snd]

theorem optionMapM_isSome {α β : Type} {f : α → Option β} {l : List α}
    (h : ∀ a ∈ l, (f a).isSome) : ∃ l', optionMapM f l = some l' := by
  induction l with
  | nil => exact ⟨[], rfl⟩
  | cons a t ih =>
    obtain ⟨b, hb⟩ := Option.isSome_iff_exists.mp (h a (by simp))
    obtain ⟨bs, hbs⟩ := ih (fun x hx => h x (by simp [hx]))
    exact ⟨b :: bs, by rw [optionMapM]; simp [hb, hbs]⟩

theorem tensorShape_channels {x : DTensor} {nb nc ns : ℕ}
    (h : tensorShape x = some (nb, nc, ns)) : ∀ b ∈ x, b.length = nc := by
  match x with
  | [] => intro b hb; cases hb
  | b0 :: bs =>
    match b0 with
    | [] =>
      rw [tensorShape] at h
      by_cases hall : bs.all (fun b2 => b2.isEmpty)
      · rw [if_pos hall] at h
        cases h
        intro b hb
        rcases List.mem_cons.mp hb with hb | hb
        · simp [hb]
        · have := List.all_eq_true.mp hall b hb
          simpa [List.isEmpty_iff] using this
      · rw [if_neg hall] at h
        cases h
    | ch :: chs =>
      rw [tensorShape] at h
      by_cases hcond : ((chs.all (fun c => c.length = ch.length)) &&
          (bs.all (fun b2 => b2.length = chs.length + 1 &&
            b2.all (fun c => c.length = ch.length)))) = true
      · rw [if_pos hcond] at h
        cases h
        intro b hb
        rcases List.mem_cons.mp hb with hb | hb
        · simp [hb]
        · have := (List.all_eq_true.mp (Bool.and_elim_right hcond) b hb)
          exact of_decide_eq_true (Bool.and_elim_left this)
      · rw [if_neg hcond] at h
        cases h

/-! ### Claim theorems -/

/-- C5: in weighted-random mode the requested index does not influence the
result. For any two in-range indices and the same random draws (`pDraw` the
uniform patient draw, `sDraw` the weighted slice draw, `tr` the transform
with its own draw fixed), `__getitem__` returns the same pair, and the pair
is precisely the one selected by the drawn patient (`pDraw`, the uniform
draw over all patients) and the drawn slice (`sDraw`). -/
theorem getitem_random_ignores_index (ds : Dataset) (tr : Arr3 × Arr3 → Arr3 × Arr3)
    (pDraw sDraw i j : ℕ) (hrs : ds.random_sampling = true)
    (hi : i < ds.patient_slice_index.length) (hj : j < ds.patient_slice_index.length) :
    getitem ds tr pDraw sDraw i = getitem ds tr pDraw sDraw j ∧
    getitem ds tr pDraw sDraw i =
      (do
        let vm ← ds.volumes.get? pDraw
        let image ← vm.1.get? sDraw
        let mask ← vm.2.get? sDraw
        let im := tr (image, mask)
        some (transpose201 im.1, transpose201 im.2)) := by
  have hgi := List.getElem?_eq_getElem hi
  have hgj := List.getElem?_eq_getElem hj
  constructor
  · simp [getitem, hgi, hgj, hrs]
  · simp [getitem, hgi, hrs]

/-- C5 witness: a two-entry dataset in random mode, indices 0 and 1. -/
theorem getitem_random_ignores_index_witness :
    getitem ⟨["p"], [([[[[1]]], [[[1]]]], [[[[1]]], [[[1]]]])], [[1]], [(0, 0), (0, 1)], true⟩
        id 0 1 0 =
      getitem ⟨["p"], [([[[[1]]], [[[1]]]], [[[[1]]], [[[1]]]])], [[1]], [(0, 0), (0, 1)], true⟩
        id 0 1 1 :=
  (getitem_random_ignores_index
    ⟨["p"], [([[[[1]]], [[[1]]]], [[[[1]]], [[[1]]]])], [[1]], [(0, 0), (0, 1)], true⟩
    id 0 1 0 1 rfl (by decide) (by decide)).1

/-- C8: a depth-5 UNet maps an (N, 3, 256, 256) input to an (N, 1, 256, 256)
output for every batch size N, and the decoder consumes the retained
pre-pooling encoder outputs in reverse order of their creation (`blocks[-i-1]`):
the bridges used, in order, are exactly the reversal of the retained blocks
(so the first decoder stage pairs with the last retained encoder output). -/
theorem unet_forward_shape (n : ℕ) :
    unetApply 3 1 5 6 n ⟨3, 256, 256⟩ =
      some ((n, ⟨1, 256, 256⟩),
        [⟨512, 32, 32⟩, ⟨256, 64, 64⟩, ⟨128, 128, 128⟩, ⟨64, 256, 256⟩]) ∧
    (runDown (downChannels 3 6 5) ⟨3, 256, 256⟩).map Prod.fst =
      some [⟨64, 256, 256⟩, ⟨128, 128, 128⟩, ⟨256, 64, 64⟩, ⟨512, 32, 32⟩] ∧
    ([⟨512, 32, 32⟩, ⟨256, 64, 64⟩, ⟨128, 128, 128⟩, (⟨64, 256, 256⟩ : CHW)] =
      [(⟨64, 256, 256⟩ : CHW), ⟨128, 128, 128⟩, ⟨256, 64, 64⟩, ⟨512, 32, 32⟩].reverse) :=
  ⟨rfl, rfl, rfl⟩

/-- C9: a selected ".tif" filename whose slice-index token cannot be parsed
(missing dot segment, fewer than five underscore fields, or a non-integer
fifth field — exactly the cases where `sliceIndexOf` is `none`) aborts the
assembly of its directory, and dataset construction over any directory list
containing that directory fails rather than producing a volume. -/
theorem parse_error_aborts (d : RawDir) (f : String) (hf : f ∈ d.files)
    (htif : pyIn ".tif" f = true) (hkey : sliceIndexOf f = none) :
    assembleDir d = none ∧
    ∀ (readImg : String → Arr3) (readMask : String → Gray2)
      (prep : List Arr3 × List Gray2 → List Arr3 × List Gray2)
      (dirs : List RawDir) (rs : Bool), d ∈ dirs →
      buildDataset readImg readMask prep dirs rs = none := by
  have hk : keyedTifs d.files = none := by
    refine optionMapM_none (List.mem_filter.mpr ⟨hf, htif⟩) ?_
    simp [hkey]
  have hdir : assembleDir d = none := by
    simp [assembleDir, hk]
  refine ⟨hdir, ?_⟩
  intro readImg readMask prep dirs rs hd
  have hall : assembleAll readImg readMask dirs = none := by
    refine foldlM_option_none hd ?_ []
    intro s
    simp [hdir]
  simp [buildDataset, hall]

/-- C9 witness: "TCGA_1.tif" has only two underscore fields in its
second-to-last dot segment. -/
theorem parse_error_aborts_witness :
    assembleDir ⟨"kaggle/p", ["TCGA_1.tif"]⟩ = none ∧
    buildDataset (fun _ => [[[1]]]) (fun _ => [[1]]) id
      [⟨"kaggle/p", ["TCGA_1.tif"]⟩] true = none := by
  have h := parse_error_aborts ⟨"kaggle/p", ["TCGA_1.tif"]⟩ "TCGA_1.tif"
    (by decide) (by decide) (by decide)
  exact ⟨h.1, h.2 _ _ _ _ _ (by decide)⟩

/-- C7: `DiceLoss(pred, true)` on tensors of one common shape with at least
one channel equals `1 - (2*intersection + 1) / (sum pred + sum true + 1)`,
all three sums over the flattened channel 0 of each batch element; identical
all-ones 8x8 masks give loss exactly 0, and fully disjoint half-one masks of
64 pixels give loss 64/65, i.e. within the smoothing epsilon 1/65 of 1. -/
theorem diceLoss_formula :
    (∀ (p t : DTensor) (nb nc ns : ℕ), tensorShape p = some (nb, nc, ns) →
      tensorShape t = some (nb, nc, ns) → 0 < nc →
      ∃ pf tf, optionMapM (fun b => b.get? 0) p = some pf ∧
        optionMapM (fun b => b.get? 0) t = some tf ∧
        diceLoss p t = some (1 -
          (2 * (List.zipWith (fun a b => a * b) pf.flatten tf.flatten).sum + 1) /
          (pf.flatten.sum + tf.flatten.sum + 1))) ∧
    diceLoss [[List.replicate 64 (1 : ℚ)]] [[List.replicate 64 (1 : ℚ)]] = some 0 ∧
    diceLoss [[List.replicate 32 (1 : ℚ) ++ List.replicate 32 0]]
      [[List.replicate 32 (0 : ℚ) ++ List.replicate 32 1]] = some (64 / 65) ∧
    (1 : ℚ) - 64 / 65 = 1 / 65 := by
  refine ⟨?_, ?_, ?_, by norm_num⟩
  · intro p t nb nc ns hp ht hnc
    have hpl := tensorShape_channels hp
    have htl := tensorShape_channels ht
    obtain ⟨pf, hpf⟩ : ∃ l', optionMapM (fun b : List (List ℚ) => b.get? 0) p = some l' := by
      refine optionMapM_isSome ?_
      intro b hb
      have : b.length = nc := hpl b hb
      cases hg : b.get? 0 with
      | none => rw [List.get?_eq_none] at hg; omega
      | some y => rfl
    obtain ⟨tf, htf⟩ : ∃ l', optionMapM (fun b : List (List ℚ) => b.get? 0) t = some l' := by
      refine optionMapM_isSome ?_
      intro b hb
      have : b.length = nc := htl b hb
      cases hg : b.get? 0 with
      | none => rw [List.get?_eq_none] at hg; omega
      | some y => rfl
    refine ⟨pf, tf, hpf, htf, ?_⟩
    rw [diceLoss, hp, ht]
    simp only [Option.bind_eq_bind, Option.some_bind, if_pos]
    rw [hpf, htf]
    simp only [Option.some_bind]
  · rw [diceLoss]
    norm_num [tensorShape, optionMapM]
  · have hz : List.zipWith (fun a b : ℚ => a * b)
        (List.replicate 32 1 ++ List.replicate 32 0)
        (List.replicate 32 0 ++ List.replicate 32 1) =
        List.replicate 32 (1 * 0 : ℚ) ++ List.replicate 32 (0 * 1 : ℚ) := by
      rw [List.zipWith_append _ _ _ _ _ (by simp), List.zipWith_replicate',
        List.zipWith_replicate']
    rw [diceLoss]
    norm_num [tensorShape, optionMapM, hz, List.sum_replicate]

theorem sum_map_affine (s : List ℚ) (c d : ℚ) :
    (s.map (fun x => (x + c) / d)).sum = (s.sum + s.length * c) / d := by
  induction s with
  | nil => simp
  | cons a t ih =>
    rw [List.map_cons, List.sum_cons, ih, div_add_div_same, List.sum_cons, List.length_cons]
    congr 1
    push_cast
    ring

theorem maskSliceSums_ne_nil {m : List Gray2} (h : m ≠ []) :
    maskSliceSums m = .vec (m.map (fun sl => (sl.map List.sum).sum)) := by
  cases m with
  | nil => exact absurd rfl h
  | cons a b => rfl

/-- Folding the walk over a single kept directory. -/
theorem assembleAll_singleton (readImg : String → Arr3) (readMask : String → Gray2)
    (d : RawDir) (iF mF : List String)
    (ha : assembleDir d = some (iF, mF)) (hne : iF ≠ []) :
    assembleAll readImg readMask [d] =
      some [(patientId d.path,
        (pyTrim (iF.map (fun f => readImg (d.path ++ "/" ++ f))),
         pyTrim (mF.map (fun f => readMask (d.path ++ "/" ++ f)))))] := by
  rw [assembleAll]
  simp only [List.foldlM_cons, List.foldlM_nil, ha, Option.bind_eq_bind, Option.some_bind]
  rw [if_pos (by simp [List.length_pos, hne])]
  rfl

theorem volumesOf_singleton (k : String) (tv : List Arr3 × List Gray2) :
    volumesOf [(k, tv)] = [tv] := by
  simp [volumesOf, sortedPatients, List.insertionSort, List.lookup]

/-- C1 (amended): the per-slice weights of lines 85-88 form a probability
vector — nonnegative entries summing to 1 — for every mask volume with
nonnegative pixel values and at least one positive pixel; and at dataset
construction the stored `slice_weights` are exactly those vectors, one per
preprocessed patient volume. (For an all-zero mask the normalization divides
by `s.sum() * 1.1 = 0` and no probability vector results, so the positivity
hypothesis is necessary — see the counterexample.) -/
theorem sliceWeights_probability :
    (∀ m : List Gray2,
      (∀ sl ∈ m, ∀ row ∈ sl, ∀ x ∈ row, 0 ≤ x) →
      0 < (m.map (fun sl => (sl.map List.sum).sum)).sum →
      ∃ w, normalizeWeights (maskSliceSums m) = some w ∧
        w.sum = 1 ∧ (∀ x ∈ w, 0 ≤ x) ∧ w.length = m.length) ∧
    (∀ (vols : List (List Arr3 × List Gray2)) (ws : List (List ℚ)),
      weightsOf vols = some ws →
      List.Forall₂ (fun vm w => normalizeWeights (maskSliceSums vm.2) = some w) vols ws) ∧
    (∀ (readImg : String → Arr3) (readMask : String → Gray2)
      (prep : List Arr3 × List Gray2 → List Arr3 × List Gray2)
      (dirs : List RawDir) (rs : Bool) (ds : Dataset),
      buildDataset readImg readMask prep dirs rs = some ds →
      ∃ dict, assembleAll readImg readMask dirs = some dict ∧
        weightsOf ((volumesOf dict).map prep) = some ds.slice_weights) := by
  refine ⟨?_, ?_, ?_⟩
  · intro m hnn hpos
    have hmne : m ≠ [] := by
      intro he
      rw [he] at hpos
      simp at hpos
    rw [maskSliceSums_ne_nil hmne, normalizeWeights]
    set s : List ℚ := m.map (fun sl => (sl.map List.sum).sum) with hs
    have hlen : s.length = m.length := by rw [hs, List.length_map]
    have hln0 : (s.length : ℚ) ≠ 0 := by
      rw [hlen]
      exact_mod_cast fun he => hmne (List.length_eq_zero.mp (by exact_mod_cast he))
    have hS : s.sum ≠ 0 := ne_of_gt hpos
    refine ⟨_, rfl, ?_, ?_, by rw [List.length_map, hlen]⟩
    · rw [sum_map_affine s (s.sum * (1 / 10) / (s.length : ℚ)) (s.sum * (11 / 10))]
      field_simp
      ring
    · intro x hx
      rcases List.mem_map.mp hx with ⟨y, hy, rfl⟩
      have hy0 : 0 ≤ y := by
        rcases List.mem_map.mp hy with ⟨sl, hsl, rfl⟩
        refine List.sum_nonneg ?_
        intro r hr
        rcases List.mem_map.mp hr with ⟨row, hrow, rfl⟩
        exact List.sum_nonneg (fun q hq => hnn sl hsl row hrow q hq)
      have hc : 0 ≤ s.sum * (1 / 10) / (s.length : ℚ) := by positivity
      have hd : 0 ≤ s.sum * (11 / 10) := by positivity
      exact div_nonneg (by linarith) hd
  · intro vols ws h
    exact optionMapM_forall₂ h
  · intro readImg readMask prep dirs rs ds h
    rw [buildDataset] at h
    cases ha : assembleAll readImg readMask dirs with
    | none => rw [ha] at h; simp at h
    | some dict =>
      rw [ha] at h
      simp only [Option.bind_eq_bind, Option.some_bind] at h
      cases hw : weightsOf ((volumesOf dict).map prep) with
      | none => rw [hw] at h; simp at h
      | some ws =>
        rw [hw] at h
        simp only [Option.some_bind, Option.some.injEq] at h
        cases h
        exact ⟨dict, rfl, hw⟩

/-- C1 witness: a single nonzero one-pixel mask slice. -/
theorem sliceWeights_probability_witness :
    ∃ w, normalizeWeights (maskSliceSums [[[(1 : ℚ)]]]) = some w ∧
      w.sum = 1 ∧ (∀ x ∈ w, 0 ≤ x) ∧ w.length = [[[(1 : ℚ)]]].length :=
  sliceWeights_probability.1 [[[(1 : ℚ)]]] (by decide) (by simp)

/-- C1 counterexample: a patient whose kept mask slice is all-zero. The
constructed dataset's weight vector for that patient is `[0]` (numpy: `nan`,
from the same division by `s.sum() * 1.1 = 0`), whose sum is 0, not 1 — not
a probability distribution. -/
theorem sliceWeights_zero_mask_counterexample :
    (buildDataset (fun _ => [[[1]]]) (fun _ => [[0]]) id
      [⟨"kaggle/TCGA_AA", ["TCGA_CS_4941_19960909_1.tif", "TCGA_CS_4941_19960909_2.tif",
        "TCGA_CS_4941_19960909_3.tif", "TCGA_CS_4941_19960909_1_mask.tif",
        "TCGA_CS_4941_19960909_2_mask.tif", "TCGA_CS_4941_19960909_3_mask.tif"]⟩]
      true).map (fun ds => ds.slice_weights) = some [[0]] ∧
    ¬ (([(0 : ℚ)]).sum = 1) := by
  constructor
  · have ha : assembleAll (fun _ => [[[(1 : ℚ)]]]) (fun _ => [[(0 : ℚ)]])
        [⟨"kaggle/TCGA_AA", ["TCGA_CS_4941_19960909_1.tif", "TCGA_CS_4941_19960909_2.tif",
          "TCGA_CS_4941_19960909_3.tif", "TCGA_CS_4941_19960909_1_mask.tif",
          "TCGA_CS_4941_19960909_2_mask.tif", "TCGA_CS_4941_19960909_3_mask.tif"]⟩] =
        some [("TCGA_AA", [[[[1]]]], [[[0]]])] := by decide
    have hw : weightsOf ((volumesOf [("TCGA_AA", [[[[1]]]], [[[0]]])]).map id)
        = some [[0]] := by
      rw [volumesOf_singleton]
      simp only [List.map_cons, List.map_nil, id_eq, weightsOf, optionMapM,
        maskSliceSums, normalizeWeights]
      norm_num
    rw [buildDataset, ha]
    simp only [Option.bind_eq_bind, Option.some_bind, hw]
    rfl
  · simp

/-- C2 (amended): dataset construction performs no image/mask slice-count
comparison. A directory that assembles with ANY image and mask file counts —
matching or mismatched — is accepted: provided it has at least one image file
and its preprocessed mask stack is nonempty (so the weight computation does
not raise for the unrelated reason of claim C10), construction succeeds and
silently stores the trimmed stacks as they are; no inconsistent-volume error
is raised. -/
theorem no_volume_consistency_check (readImg : String → Arr3) (readMask : String → Gray2)
    (prep : List Arr3 × List Gray2 → List Arr3 × List Gray2)
    (d : RawDir) (iF mF : List String) (rs : Bool)
    (ha : assembleDir d = some (iF, mF)) (hne : iF ≠ [])
    (hm : (prep (pyTrim (iF.map (fun f => readImg (d.path ++ "/" ++ f))),
            pyTrim (mF.map (fun f => readMask (d.path ++ "/" ++ f))))).2 ≠ []) :
    ∃ ds, buildDataset readImg readMask prep [d] rs = some ds ∧
      ds.patients = [patientId d.path] ∧
      ds.volumes =
        [((prep (pyTrim (iF.map (fun f => readImg (d.path ++ "/" ++ f))),
            pyTrim (mF.map (fun f => readMask (d.path ++ "/" ++ f))))).1,
          ((prep (pyTrim (iF.map (fun f => readImg (d.path ++ "/" ++ f))),
            pyTrim (mF.map (fun f => readMask (d.path ++ "/" ++ f))))).2).map addChannel)] := by
  have hall := assembleAll_singleton readImg readMask d iF mF ha hne
  obtain ⟨w, hwv⟩ : ∃ w,
      normalizeWeights (maskSliceSums
        (prep (pyTrim (iF.map (fun f => readImg (d.path ++ "/" ++ f))),
          pyTrim (mF.map (fun f => readMask (d.path ++ "/" ++ f))))).2) = some w := by
    rw [maskSliceSums_ne_nil hm, normalizeWeights]
    exact ⟨_, rfl⟩
  refine ⟨⟨[patientId d.path],
      [((prep (pyTrim (iF.map (fun f => readImg (d.path ++ "/" ++ f))),
          pyTrim (mF.map (fun f => readMask (d.path ++ "/" ++ f))))).1,
        ((prep (pyTrim (iF.map (fun f => readImg (d.path ++ "/" ++ f))),
          pyTrim (mF.map (fun f => readMask (d.path ++ "/" ++ f))))).2).map addChannel)],
      [w],
      psiOf [((prep (pyTrim (iF.map (fun f => readImg (d.path ++ "/" ++ f))),
        pyTrim (mF.map (fun f => readMask (d.path ++ "/" ++ f))))).1).length],
      rs⟩, ?_, rfl, rfl⟩
  rw [buildDataset, hall]
  simp only [Option.bind_eq_bind, Option.some_bind]
  rw [volumesOf_singleton]
  simp only [List.map_cons, List.map_nil]
  simp only [weightsOf, optionMapM, hwv, Option.bind_eq_bind, Option.some_bind]
  rfl

/-- C2 witness: a directory with 5 image files and 3 mask files (mismatched
counts) builds without error. -/
theorem no_volume_consistency_check_witness :
    ∃ ds, buildDataset (fun _ => [[[1]]]) (fun _ => [[1]]) id
      [⟨"kaggle/TCGA_BB", ["TCGA_CS_4941_19960909_1.tif", "TCGA_CS_4941_19960909_2.tif",
        "TCGA_CS_4941_19960909_3.tif", "TCGA_CS_4941_19960909_4.tif",
        "TCGA_CS_4941_19960909_5.tif", "TCGA_CS_4941_19960909_1_mask.tif",
        "TCGA_CS_4941_19960909_2_mask.tif", "TCGA_CS_4941_19960909_3_mask.tif"]⟩]
      false = some ds ∧
      ds.patients = [patientId "kaggle/TCGA_BB"] ∧
      ds.volumes =
        [((id (pyTrim ((["TCGA_CS_4941_19960909_1.tif", "TCGA_CS_4941_19960909_2.tif",
              "TCGA_CS_4941_19960909_3.tif", "TCGA_CS_4941_19960909_4.tif",
              "TCGA_CS_4941_19960909_5.tif"]).map
                (fun f => (fun _ => [[[(1 : ℚ)]]]) ("kaggle/TCGA_BB" ++ "/" ++ f))),
            pyTrim ((["TCGA_CS_4941_19960909_1_mask.tif", "TCGA_CS_4941_19960909_2_mask.tif",
              "TCGA_CS_4941_19960909_3_mask.tif"]).map
                (fun f => (fun _ => [[(1 : ℚ)]]) ("kaggle/TCGA_BB" ++ "/" ++ f))))).1,
          ((id (pyTrim ((["TCGA_CS_4941_19960909_1.tif", "TCGA_CS_4941_19960909_2.tif",
              "TCGA_CS_4941_19960909_3.tif", "TCGA_CS_4941_19960909_4.tif",
              "TCGA_CS_4941_19960909_5.tif"]).map
                (fun f => (fun _ => [[[(1 : ℚ)]]]) ("kaggle/TCGA_BB" ++ "/" ++ f))),
            pyTrim ((["TCGA_CS_4941_19960909_1_mask.tif", "TCGA_CS_4941_19960909_2_mask.tif",
              "TCGA_CS_4941_19960909_3_mask.tif"]).map
                (fun f => (fun _ => [[(1 : ℚ)]]) ("kaggle/TCGA_BB" ++ "/" ++ f))))).2).map
            addChannel)] :=
  no_volume_consistency_check (fun _ => [[[1]]]) (fun _ => [[1]]) id
    ⟨"kaggle/TCGA_BB", ["TCGA_CS_4941_19960909_1.tif", "TCGA_CS_4941_19960909_2.tif",
      "TCGA_CS_4941_19960909_3.tif", "TCGA_CS_4941_19960909_4.tif",
      "TCGA_CS_4941_19960909_5.tif", "TCGA_CS_4941_19960909_1_mask.tif",
      "TCGA_CS_4941_19960909_2_mask.tif", "TCGA_CS_4941_19960909_3_mask.tif"]⟩
    ["TCGA_CS_4941_19960909_1.tif", "TCGA_CS_4941_19960909_2.tif",
      "TCGA_CS_4941_19960909_3.tif", "TCGA_CS_4941_19960909_4.tif",
      "TCGA_CS_4941_19960909_5.tif"]
    ["TCGA_CS_4941_19960909_1_mask.tif", "TCGA_CS_4941_19960909_2_mask.tif",
      "TCGA_CS_4941_19960909_3_mask.tif"]
    false (by decide) (by decide) (by decide)

/-- C2 counterexample: with 5 image files and 3 mask files (a count mismatch
after trimming: 3 kept images vs 1 kept mask) the constructor does NOT fail:
it returns a dataset holding the mismatched volume. -/
theorem no_volume_consistency_check_counterexample :
    (buildDataset (fun _ => [[[1]]]) (fun _ => [[1]]) id
      [⟨"kaggle/TCGA_BB", ["TCGA_CS_4941_19960909_1.tif", "TCGA_CS_4941_19960909_2.tif",
        "TCGA_CS_4941_19960909_3.tif", "TCGA_CS_4941_19960909_4.tif",
        "TCGA_CS_4941_19960909_5.tif", "TCGA_CS_4941_19960909_1_mask.tif",
        "TCGA_CS_4941_19960909_2_mask.tif", "TCGA_CS_4941_19960909_3_mask.tif"]⟩]
      false).map (fun ds => ds.volumes.map (fun vm => (vm.1.length, vm.2.length))) =
      some [(3, 1)] ∧ (3 : ℕ) ≠ 1 := by
  constructor
  · have ha : assembleAll (fun _ => [[[(1 : ℚ)]]]) (fun _ => [[(1 : ℚ)]])
        [⟨"kaggle/TCGA_BB", ["TCGA_CS_4941_19960909_1.tif", "TCGA_CS_4941_19960909_2.tif",
          "TCGA_CS_4941_19960909_3.tif", "TCGA_CS_4941_19960909_4.tif",
          "TCGA_CS_4941_19960909_5.tif", "TCGA_CS_4941_19960909_1_mask.tif",
          "TCGA_CS_4941_19960909_2_mask.tif", "TCGA_CS_4941_19960909_3_mask.tif"]⟩] =
        some [("TCGA_BB", ([[[[1]]], [[[1]]], [[[1]]]], [[[1]]]))] := by decide
    have hw : weightsOf ((volumesOf
        [("TCGA_BB", ([[[[1]]], [[[1]]], [[[1]]]], [[[1]]]))]).map id) = some [[1]] := by
      rw [volumesOf_singleton]
      simp only [List.map_cons, List.map_nil, id_eq, weightsOf, optionMapM,
        maskSliceSums, normalizeWeights]
      norm_num
    rw [buildDataset, ha]
    simp only [Option.bind_eq_bind, Option.some_bind, hw]
    rfl
  · decide

/-- C4 (amended): for every directory kept by assembly, the stored image
stack has length (image-file count − 2) and the stored mask stack has length
(mask-file count − 2), each truncated at zero (`xs[1:-1]`); the two stored
lengths agree exactly when the original per-kind counts do, and nothing
enforces that agreement. -/
theorem trimmed_stack_lengths (readImg : String → Arr3) (readMask : String → Gray2)
    (d : RawDir) (iF mF : List String)
    (ha : assembleDir d = some (iF, mF)) (hne : iF ≠ []) :
    assembleAll readImg readMask [d] =
      some [(patientId d.path,
        (pyTrim (iF.map (fun f => readImg (d.path ++ "/" ++ f))),
         pyTrim (mF.map (fun f => readMask (d.path ++ "/" ++ f)))))] ∧
    (pyTrim (iF.map (fun f => readImg (d.path ++ "/" ++ f)))).length = iF.length - 2 ∧
    (pyTrim (mF.map (fun f => readMask (d.path ++ "/" ++ f)))).length = mF.length - 2 := by
  refine ⟨assembleAll_singleton readImg readMask d iF mF ha hne, ?_, ?_⟩
  · rw [pyTrim_length, List.length_map]
  · rw [pyTrim_length, List.length_map]

/-- C4 witness: the 5-image/3-mask directory, stored lengths 3 and 1. -/
theorem trimmed_stack_lengths_witness :
    assembleAll (fun _ => [[[(1 : ℚ)]]]) (fun _ => [[(1 : ℚ)]])
      [⟨"kaggle/TCGA_BB", ["TCGA_CS_4941_19960909_1.tif", "TCGA_CS_4941_19960909_2.tif",
        "TCGA_CS_4941_19960909_3.tif", "TCGA_CS_4941_19960909_4.tif",
        "TCGA_CS_4941_19960909_5.tif", "TCGA_CS_4941_19960909_1_mask.tif",
        "TCGA_CS_4941_19960909_2_mask.tif", "TCGA_CS_4941_19960909_3_mask.tif"]⟩] =
      some [(patientId "kaggle/TCGA_BB",
        (pyTrim ((["TCGA_CS_4941_19960909_1.tif", "TCGA_CS_4941_19960909_2.tif",
          "TCGA_CS_4941_19960909_3.tif", "TCGA_CS_4941_19960909_4.tif",
          "TCGA_CS_4941_19960909_5.tif"]).map
            (fun f => (fun _ => [[[(1 : ℚ)]]]) ("kaggle/TCGA_BB" ++ "/" ++ f))),
         pyTrim ((["TCGA_CS_4941_19960909_1_mask.tif", "TCGA_CS_4941_19960909_2_mask.tif",
          "TCGA_CS_4941_19960909_3_mask.tif"]).map
            (fun f => (fun _ => [[(1 : ℚ)]]) ("kaggle/TCGA_BB" ++ "/" ++ f)))))] ∧
    (pyTrim ((["TCGA_CS_4941_19960909_1.tif", "TCGA_CS_4941_19960909_2.tif",
      "TCGA_CS_4941_19960909_3.tif", "TCGA_CS_4941_19960909_4.tif",
      "TCGA_CS_4941_19960909_5.tif"]).map
        (fun f => (fun _ => [[[(1 : ℚ)]]]) ("kaggle/TCGA_BB" ++ "/" ++ f)))).length =
      (["TCGA_CS_4941_19960909_1.tif", "TCGA_CS_4941_19960909_2.tif",
        "TCGA_CS_4941_19960909_3.tif", "TCGA_CS_4941_19960909_4.tif",
        "TCGA_CS_4941_19960909_5.tif"] : List String).length - 2 ∧
    (pyTrim ((["TCGA_CS_4941_19960909_1_mask.tif", "TCGA_CS_4941_19960909_2_mask.tif",
      "TCGA_CS_4941_19960909_3_mask.tif"]).map
        (fun f => (fun _ => [[(1 : ℚ)]]) ("kaggle/TCGA_BB" ++ "/" ++ f)))).length =
      (["TCGA_CS_4941_19960909_1_mask.tif", "TCGA_CS_4941_19960909_2_mask.tif",
        "TCGA_CS_4941_19960909_3_mask.tif"] : List String).length - 2 :=
  trimmed_stack_lengths (fun _ => [[[1]]]) (fun _ => [[1]])
    ⟨"kaggle/TCGA_BB", ["TCGA_CS_4941_19960909_1.tif", "TCGA_CS_4941_19960909_2.tif",
      "TCGA_CS_4941_19960909_3.tif", "TCGA_CS_4941_19960909_4.tif",
      "TCGA_CS_4941_19960909_5.tif", "TCGA_CS_4941_19960909_1_mask.tif",
      "TCGA_CS_4941_19960909_2_mask.tif", "TCGA_CS_4941_19960909_3_mask.tif"]⟩
    ["TCGA_CS_4941_19960909_1.tif", "TCGA_CS_4941_19960909_2.tif",
      "TCGA_CS_4941_19960909_3.tif", "TCGA_CS_4941_19960909_4.tif",
      "TCGA_CS_4941_19960909_5.tif"]
    ["TCGA_CS_4941_19960909_1_mask.tif", "TCGA_CS_4941_19960909_2_mask.tif",
      "TCGA_CS_4941_19960909_3_mask.tif"]
    (by decide) (by decide)

/-- C4 counterexample: the same 5-image/3-mask directory. The stored image
and mask stacks have lengths 3 and 1 — NOT equal, refuting "the two stored
sequences have equal length" for arbitrary kept directories. -/
theorem trimmed_stack_lengths_counterexample :
    (assembleAll (fun _ => [[[(1 : ℚ)]]]) (fun _ => [[(1 : ℚ)]])
      [⟨"kaggle/TCGA_BB", ["TCGA_CS_4941_19960909_1.tif", "TCGA_CS_4941_19960909_2.tif",
        "TCGA_CS_4941_19960909_3.tif", "TCGA_CS_4941_19960909_4.tif",
        "TCGA_CS_4941_19960909_5.tif", "TCGA_CS_4941_19960909_1_mask.tif",
        "TCGA_CS_4941_19960909_2_mask.tif", "TCGA_CS_4941_19960909_3_mask.tif"]⟩]).map
      (fun dict => dict.map (fun kv => (kv.2.1.length, kv.2.2.length))) =
      some [(3, 1)] ∧ (3 : ℕ) ≠ 1 :=
  ⟨by decide, by decide⟩

/-- C10 (amended): a directory with 1 or 2 image files (so it passes the
pre-trim non-empty check) and at most 2 mask files is registered as a
patient with empty trimmed stacks — but dataset construction then FAILS: the
empty mask stack collapses under `m.sum(axis=-1).sum(axis=-1)` to a 0-d
value and `len(s)` in the weight computation raises a TypeError, so no
dataset with an empty weight vector is ever produced. (The preprocessing
stages, absent from the snapshot and modelled from the spec, are assumed to
map an empty mask stack to an empty mask stack, the shape-preserving
reading of spec section 4.2.) -/
theorem tiny_volume_construction_fails (readImg : String → Arr3) (readMask : String → Gray2)
    (prep : List Arr3 × List Gray2 → List Arr3 × List Gray2)
    (d : RawDir) (iF mF : List String) (rs : Bool)
    (ha : assembleDir d = some (iF, mF)) (hne : iF ≠ [])
    (h2 : iF.length ≤ 2) (h3 : mF.length ≤ 2)
    (hprep : ∀ v : List Arr3, (prep (v, ([] : List Gray2))).2 = []) :
    assembleAll readImg readMask [d] = some [(patientId d.path, ([], []))] ∧
    buildDataset readImg readMask prep [d] rs = none := by
  have hti : pyTrim (iF.map (fun f => readImg (d.path ++ "/" ++ f))) = [] :=
    pyTrim_eq_nil _ (by rw [List.length_map]; exact h2)
  have htm : pyTrim (mF.map (fun f => readMask (d.path ++ "/" ++ f))) = [] :=
    pyTrim_eq_nil _ (by rw [List.length_map]; exact h3)
  have hall := assembleAll_singleton readImg readMask d iF mF ha hne
  rw [hti, htm] at hall
  refine ⟨hall, ?_⟩
  rw [buildDataset, hall]
  simp only [Option.bind_eq_bind, Option.some_bind]
  rw [volumesOf_singleton]
  simp only [List.map_cons, List.map_nil]
  have hms : maskSliceSums (prep (([] : List Arr3), ([] : List Gray2))).2 = .scalar 0 := by
    rw [hprep]
    rfl
  simp [weightsOf, optionMapM, hms, normalizeWeights]

/-- C10 witness: a 2-image/2-mask directory with identity preprocessing. -/
theorem tiny_volume_construction_fails_witness :
    assembleAll (fun _ => [[[(1 : ℚ)]]]) (fun _ => [[(1 : ℚ)]])
      [⟨"kaggle/TCGA_CC", ["TCGA_CS_4941_19960909_1.tif", "TCGA_CS_4941_19960909_2.tif",
        "TCGA_CS_4941_19960909_1_mask.tif", "TCGA_CS_4941_19960909_2_mask.tif"]⟩] =
      some [(patientId "kaggle/TCGA_CC", ([], []))] ∧
    buildDataset (fun _ => [[[(1 : ℚ)]]]) (fun _ => [[(1 : ℚ)]]) id
      [⟨"kaggle/TCGA_CC", ["TCGA_CS_4941_19960909_1.tif", "TCGA_CS_4941_19960909_2.tif",
        "TCGA_CS_4941_19960909_1_mask.tif", "TCGA_CS_4941_19960909_2_mask.tif"]⟩]
      true = none :=
  tiny_volume_construction_fails (fun _ => [[[1]]]) (fun _ => [[1]]) id
    ⟨"kaggle/TCGA_CC", ["TCGA_CS_4941_19960909_1.tif", "TCGA_CS_4941_19960909_2.tif",
      "TCGA_CS_4941_19960909_1_mask.tif", "TCGA_CS_4941_19960909_2_mask.tif"]⟩
    ["TCGA_CS_4941_19960909_1.tif", "TCGA_CS_4941_19960909_2.tif"]
    ["TCGA_CS_4941_19960909_1_mask.tif", "TCGA_CS_4941_19960909_2_mask.tif"]
    true (by decide) (by decide) (by decide) (by decide) (fun v => rfl)

/-- C10 counterexample: the same 2-image/2-mask directory is registered by
the walk with empty trimmed stacks, yet `buildDataset` returns `none`
(construction raises), refuting "... rather than being rejected or raising
an error at construction". -/
theorem tiny_volume_counterexample :
    assembleAll (fun _ => [[[(1 : ℚ)]]]) (fun _ => [[(1 : ℚ)]])
      [⟨"kaggle/TCGA_DD", ["TCGA_CS_4942_19970101_1.tif", "TCGA_CS_4942_19970101_2.tif",
        "TCGA_CS_4942_19970101_1_mask.tif", "TCGA_CS_4942_19970101_2_mask.tif"]⟩] =
      some [("TCGA_DD", ([], []))] ∧
    buildDataset (fun _ => [[[(1 : ℚ)]]]) (fun _ => [[(1 : ℚ)]]) id
      [⟨"kaggle/TCGA_DD", ["TCGA_CS_4942_19970101_1.tif", "TCGA_CS_4942_19970101_2.tif",
        "TCGA_CS_4942_19970101_1_mask.tif", "TCGA_CS_4942_19970101_2_mask.tif"]⟩]
      true = none :=
  ⟨by decide, by decide⟩

theorem forall₂_key_facts {l : List String} {keyed : List (ℤ × String)}
    (h : List.Forall₂ (fun f p => (sliceIndexOf f).map (fun k => (k, f)) = some p) l keyed) :
    keyed.map Prod.snd = l ∧ ∀ p ∈ keyed, sliceIndexOf p.2 = some p.1 := by
  induction h with
  | nil => exact ⟨rfl, fun p hp => absurd hp (List.not_mem_nil p)⟩
  | cons hab htail ih =>
    rcases Option.map_eq_some'.mp hab with ⟨k, hk1, hk2⟩
    subst hk2
    constructor
    · simp only [List.map_cons, ih.1]
    · intro p hp
      rcases List.mem_cons.mp hp with hp | hp
      · subst hp
        exact hk1
      · exact ih.2 p hp

/-- C3 (amended): the files taken into a patient's volume are exactly those
whose name CONTAINS the substring ".tif" (the code tests `".tif" in f`, not
the file extension — see the counterexample); names containing "mask" are
classified as mask slices and all others as image slices, every selected name
parses to a slice index, and each group is ordered by ascending slice index
(the 5th underscore field of the second-to-last dot segment). -/
theorem selection_and_order (d : RawDir) (iF mF : List String)
    (ha : assembleDir d = some (iF, mF)) :
    (iF ++ mF).Perm (d.files.filter (fun f => pyIn ".tif" f)) ∧
    (∀ f ∈ iF, pyIn "mask" f = false) ∧
    (∀ f ∈ mF, pyIn "mask" f = true) ∧
    (∀ f ∈ iF ++ mF, (sliceIndexOf f).isSome) ∧
    List.Pairwise (fun f g => ∀ kf kg, sliceIndexOf f = some kf →
      sliceIndexOf g = some kg → kf ≤ kg) iF ∧
    List.Pairwise (fun f g => ∀ kf kg, sliceIndexOf f = some kf →
      sliceIndexOf g = some kg → kf ≤ kg) mF := by
  rw [assembleDir] at ha
  cases hk : keyedTifs d.files with
  | none => rw [hk] at ha; simp at ha
  | some keyed =>
    rw [hk] at ha
    simp only [Option.bind_eq_bind, Option.some_bind, Option.some.injEq] at ha
    rw [Prod.ext_iff] at ha
    obtain ⟨h1, h2⟩ := ha
    subst h1
    subst h2
    obtain ⟨hmap, hkey⟩ := forall₂_key_facts (optionMapM_forall₂ hk)
    have hkeysorted : ∀ p ∈ List.insertionSort keyLe keyed, sliceIndexOf p.2 = some p.1 :=
      fun p hp => hkey p ((List.mem_insertionSort keyLe).mp hp)
    have hsorted : List.Sorted keyLe (List.insertionSort keyLe keyed) :=
      List.sorted_insertionSort keyLe keyed
    have hnames : List.Pairwise (fun f g => ∀ kf kg, sliceIndexOf f = some kf →
        sliceIndexOf g = some kg → kf ≤ kg)
        ((List.insertionSort keyLe keyed).map Prod.snd) := by
      rw [List.pairwise_map]
      refine hsorted.imp_of_mem ?_
      intro a b hma hmb hr kf kg hkf hkg
      rw [hkeysorted a hma] at hkf
      rw [hkeysorted b hmb] at hkg
      cases hkf
      cases hkg
      exact hr
    have hsplit : (((List.insertionSort keyLe keyed).map Prod.snd).filter
          (fun f => !(pyIn "mask" f)) ++
        ((List.insertionSort keyLe keyed).map Prod.snd).filter
          (fun f => pyIn "mask" f)).Perm
        ((List.insertionSort keyLe keyed).map Prod.snd) := by
      have hfp := List.filter_append_perm (fun f => !(pyIn "mask" f))
        ((List.insertionSort keyLe keyed).map Prod.snd)
      simpa using hfp
    have hperm : ((List.insertionSort keyLe keyed).map Prod.snd).Perm
        (d.files.filter (fun f => pyIn ".tif" f)) := by
      rw [← hmap]
      exact (List.perm_insertionSort keyLe keyed).map Prod.snd
    refine ⟨hsplit.trans hperm, ?_, ?_, ?_, ?_, ?_⟩
    · intro f hf
      have := (List.mem_filter.mp hf).2
      simpa using this
    · intro f hf
      exact (List.mem_filter.mp hf).2
    · intro f hf
      have hfs : f ∈ (List.insertionSort keyLe keyed).map Prod.snd := by
        rcases List.mem_append.mp hf with hf | hf
        · exact (List.mem_filter.mp hf).1
        · exact (List.mem_filter.mp hf).1
      rcases List.mem_map.mp hfs with ⟨p, hp, rfl⟩
      rw [hkeysorted p hp]
      rfl
    · exact hnames.sublist (List.filter_sublist _)
    · exact hnames.sublist (List.filter_sublist _)

/-- C3 witness: a directory with one image file and one mask file. -/
theorem selection_and_order_witness :
    ((["TCGA_CS_4941_19960909_1.tif"] ++ ["TCGA_CS_4941_19960909_1_mask.tif"]).Perm
      ((["TCGA_CS_4941_19960909_1.tif",
        "TCGA_CS_4941_19960909_1_mask.tif"] : List String).filter
        (fun f => pyIn ".tif" f))) ∧
    (∀ f ∈ ["TCGA_CS_4941_19960909_1.tif"], pyIn "mask" f = false) ∧
    (∀ f ∈ ["TCGA_CS_4941_19960909_1_mask.tif"], pyIn "mask" f = true) ∧
    (∀ f ∈ ["TCGA_CS_4941_19960909_1.tif"] ++ ["TCGA_CS_4941_19960909_1_mask.tif"],
      (sliceIndexOf f).isSome) ∧
    List.Pairwise (fun f g => ∀ kf kg, sliceIndexOf f = some kf →
      sliceIndexOf g = some kg → kf ≤ kg) ["TCGA_CS_4941_19960909_1.tif"] ∧
    List.Pairwise (fun f g => ∀ kf kg, sliceIndexOf f = some kf →
      sliceIndexOf g = some kg → kf ≤ kg) ["TCGA_CS_4941_19960909_1_mask.tif"] :=
  selection_and_order
    ⟨"kaggle/TCGA_AA", ["TCGA_CS_4941_19960909_1.tif", "TCGA_CS_4941_19960909_1_mask.tif"]⟩
    ["TCGA_CS_4941_19960909_1.tif"] ["TCGA_CS_4941_19960909_1_mask.tif"] (by decide)

/-- C3 counterexample: "TCGA_CS_4943_19960909_10.tifextra" contains the
substring ".tif" but its extension is "tifextra", not "tif"; the assembler
takes it anyway, refuting "exactly the files whose name has a `.tif`
extension". -/
theorem selection_substring_counterexample :
    assembleDir ⟨"kaggle/TCGA_EE", ["TCGA_CS_4943_19960909_10.tifextra"]⟩ =
      some (["TCGA_CS_4943_19960909_10.tifextra"], []) ∧
    hasTifExtension "TCGA_CS_4943_19960909_10.tifextra" = false ∧
    pyIn ".tif" "TCGA_CS_4943_19960909_10.tifextra" = true :=
  ⟨by decide, by decide, by decide⟩

/-- Deterministic-mode access: with `random_sampling = false` the result of
`__getitem__` is the pair fixed by the looked-up table entry, for any draws. -/
theorem getitem_det (ds : Dataset) (tr : Arr3 × Arr3 → Arr3 × Arr3)
    (pD sD i p s : ℕ) (hrs : ds.random_sampling = false)
    (hi : ds.patient_slice_index.get? i = some (p, s)) :
    getitem ds tr pD sD i =
      (do
        let vm ← ds.volumes.get? p
        let image ← vm.1.get? s
        let mask ← vm.2.get? s
        let im := tr (image, mask)
        some (transpose201 im.1, transpose201 im.2)) := by
  rw [List.get?_eq_getElem?] at hi
  simp [getitem, hi, hrs]

/-- C6: with random_sampling=False, `__len__` is the total number of stored
(patient, slice) pairs; the flat index lists, for each patient position (in
sorted-patient order, the order of `ds.volumes`), the pairs (p, 0) … (p, n−1)
in increasing slice order; it has no duplicates and contains exactly the
in-range pairs — so enumerating 0 … len−1 visits every stored slice exactly
once; and `__getitem__` at index i is independent of the random draws and
returns the pair fixed by the i-th table entry. -/
theorem deterministic_enumeration (readImg : String → Arr3) (readMask : String → Gray2)
    (prep : List Arr3 × List Gray2 → List Arr3 × List Gray2)
    (dirs : List RawDir) (tr : Arr3 × Arr3 → Arr3 × Arr3) (ds : Dataset)
    (h : buildDataset readImg readMask prep dirs false = some ds) :
    dsLen ds = (ds.volumes.map (fun vm => vm.1.length)).sum ∧
    ds.patient_slice_index =
      ((ds.volumes.map (fun vm => vm.1.length)).enum.map
        (fun q => (List.range q.2).map (fun t => (q.1, t)))).flatten ∧
    ds.patient_slice_index.Nodup ∧
    (∀ p s : ℕ, (p, s) ∈ ds.patient_slice_index ↔
      ∃ vm, ds.volumes.get? p = some vm ∧ s < vm.1.length) ∧
    List.Sorted (fun a b : String => a ≤ b) ds.patients ∧
    (∀ i p s pD sD pD' sD', ds.patient_slice_index.get? i = some (p, s) →
      getitem ds tr pD sD i = getitem ds tr pD' sD' i ∧
      getitem ds tr pD sD i =
        (do
          let vm ← ds.volumes.get? p
          let image ← vm.1.get? s
          let mask ← vm.2.get? s
          let im := tr (image, mask)
          some (transpose201 im.1, transpose201 im.2))) := by
  haveI hTot : IsTotal String (fun a b : String => a ≤ b) := ⟨fun a b => le_total a b⟩
  haveI hTrans : IsTrans String (fun a b : String => a ≤ b) :=
    ⟨fun _ _ _ hab hbc => le_trans hab hbc⟩
  rw [buildDataset] at h
  cases hdict : assembleAll readImg readMask dirs with
  | none => rw [hdict] at h; simp at h
  | some dict =>
    rw [hdict] at h
    simp only [Option.bind_eq_bind, Option.some_bind] at h
    cases hw : weightsOf ((volumesOf dict).map prep) with
    | none => rw [hw] at h; simp at h
    | some ws =>
      rw [hw] at h
      simp only [Option.some_bind, Option.some.injEq] at h
      cases h
      refine ⟨psiOf_length _, psiOf_eq _, psiOf_nodup _, ?_, ?_, ?_⟩
      · intro p s
        rw [psiOf_mem]
        constructor
        · rintro ⟨n, hn, hs⟩
          rw [List.get?_map] at hn
          rcases Option.map_eq_some'.mp hn with ⟨vm, hvm, hlen⟩
          exact ⟨vm, hvm, by rw [hlen]; exact hs⟩
        · rintro ⟨vm, hvm, hs⟩
          refine ⟨vm.1.length, ?_, hs⟩
          rw [List.get?_map, hvm]
          rfl
      · exact List.sorted_insertionSort _ _
      · intro i p s pD sD pD' sD' hi
        have e1 := getitem_det _ tr pD sD i p s rfl hi
        have e2 := getitem_det _ tr pD' sD' i p s rfl hi
        exact ⟨e1.trans e2.symm, e1⟩

/-- C6 witness: a one-patient dataset built from a 3-image/3-mask directory. -/
theorem deterministic_enumeration_witness :
    dsLen ⟨["TCGA_AA"], [([[[[1]]]], [[[[1]]]])], [[1]], [(0, 0)], false⟩ =
      (([([[[[(1 : ℚ)]]]], [[[[(1 : ℚ)]]]])] : List (List Arr3 × List Arr3)).map
        (fun vm => vm.1.length)).sum := by
  have h : buildDataset (fun _ => [[[1]]]) (fun _ => [[1]]) id
      [⟨"kaggle/TCGA_AA", ["TCGA_CS_4941_19960909_1.tif", "TCGA_CS_4941_19960909_2.tif",
        "TCGA_CS_4941_19960909_3.tif", "TCGA_CS_4941_19960909_1_mask.tif",
        "TCGA_CS_4941_19960909_2_mask.tif", "TCGA_CS_4941_19960909_3_mask.tif"]⟩]
      false = some ⟨["TCGA_AA"], [([[[[1]]]], [[[[1]]]])], [[1]], [(0, 0)], false⟩ := by
    have ha : assembleAll (fun _ => [[[(1 : ℚ)]]]) (fun _ => [[(1 : ℚ)]])
        [⟨"kaggle/TCGA_AA", ["TCGA_CS_4941_19960909_1.tif", "TCGA_CS_4941_19960909_2.tif",
          "TCGA_CS_4941_19960909_3.tif", "TCGA_CS_4941_19960909_1_mask.tif",
          "TCGA_CS_4941_19960909_2_mask.tif", "TCGA_CS_4941_19960909_3_mask.tif"]⟩] =
        some [("TCGA_AA", [[[[1]]]], [[[1]]])] := by decide
    have hw : weightsOf ((volumesOf [("TCGA_AA", [[[[1]]]], [[[1]]])]).map id)
        = some [[1]] := by
      rw [volumesOf_singleton]
      simp only [List.map_cons, List.map_nil, id_eq, weightsOf, optionMapM,
        maskSliceSums, normalizeWeights]
      norm_num
    rw [buildDataset, ha]
    simp only [Option.bind_eq_bind, Option.some_bind, hw]
    rfl
  exact (deterministic_enumeration (fun _ => [[[1]]]) (fun _ => [[1]]) id
    [⟨"kaggle/TCGA_AA", ["TCGA_CS_4941_19960909_1.tif", "TCGA_CS_4941_19960909_2.tif",
      "TCGA_CS_4941_19960909_3.tif", "TCGA_CS_4941_19960909_1_mask.tif",
      "TCGA_CS_4941_19960909_2_mask.tif", "TCGA_CS_4941_19960909_3_mask.tif"]⟩]
    (fun x => x) ⟨["TCGA_AA"], [([[[[1]]]], [[[[1]]]])], [[1]], [(0, 0)], false⟩ h).1

/-- C7 witness: one-pixel tensors of shape (1, 1, 1). -/
theorem diceLoss_formula_witness :
    ∃ pf tf, optionMapM (fun b => b.get? 0) [[[(1 : ℚ)]]] = some pf ∧
      optionMapM (fun b => b.get? 0) [[[(1 : ℚ)]]] = some tf ∧
      diceLoss [[[(1 : ℚ)]]] [[[(1 : ℚ)]]] = some (1 -
        (2 * (List.zipWith (fun a b => a * b) pf.flatten tf.flatten).sum + 1) /
        (pf.flatten.sum + tf.flatten.sum + 1)) :=
  diceLoss_formula.1 [[[(1 : ℚ)]]] [[[(1 : ℚ)]]] 1 1 1 (by decide) (by decide) (by decide)

end UnetSpec
